import Mathlib

/-!
Verification of the convex-evals evaluation harness against its natural-language
specification.  The definitions below are a shallow embedding of the TypeScript
sources: `src/convex_backend.ts` (health prober and deploy supervisor),
`src/main.ts` (batch orchestrator, stage pipeline, discovery), `src/typescript.ts`
(setup/typecheck/lint verifier runners), `src/errors.ts` (error rendering) and
`src/generate.ts` (generation file writing).  External effects (HTTP fetches,
child processes, the filesystem, wall-clock time) are modelled as explicit
parameters or as data threaded through the functions; loops are given explicit
fuel so every definition is total and executable.
-/

namespace ConvexEvals

/-! ## Health prober (healthCheck in src/convex_backend.ts)

The prober fixes a deadline `Date.now() + 10000` at entry, then loops: fetch the
version endpoint; on failure compute `remaining = deadline - Date.now()`, throw
the last error if `remaining < 0`, otherwise sleep
`min(100 * 2 ^ numAttempts, remaining)` and retry.

The embedding starts the clock at 0, so the deadline is `totalTimeoutMs` and
`remaining < 0` is exactly `totalTimeoutMs < now`.  The external fetch is
modelled by `fetchDur` (how many milliseconds attempt `k` takes) and `fetchOk`
(whether attempt `k` succeeds).  The function returns the list of sleep
durations performed and the outcome: `some true` for success, `some false` for
the re-thrown last error, `none` when the model fuel runs out.
-/

/-- Total probe time budget in milliseconds: the 10 second deadline. -/
def totalTimeoutMs : Nat := 10000

/-- Base backoff delay in milliseconds. -/
def baseDelayMs : Nat := 100

/-- One loop of `healthCheck`, with explicit fuel, current time `now` and the
`numAttempts` counter `k`. -/
def healthCheckGo (fetchDur : Nat → Nat) (fetchOk : Nat → Bool) :
    Nat → Nat → Nat → List Nat × Option Bool
  | 0, _, _ => ([], none)
  | fuel + 1, now, k =>
    let now2 := now + fetchDur k
    if fetchOk k then ([], some true)
    else if totalTimeoutMs < now2 then ([], some false)
    else
      let s := min (baseDelayMs * 2 ^ k) (totalTimeoutMs - now2)
      let r := healthCheckGo fetchDur fetchOk fuel (now2 + s) (k + 1)
      (s :: r.1, r.2)

/-- The health prober, started at time 0 with attempt counter 0. -/
def healthCheck (fetchDur : Nat → Nat) (fetchOk : Nat → Bool) (fuel : Nat) :
    List Nat × Option Bool :=
  healthCheckGo fetchDur fetchOk fuel 0 0

/-- Total fetch time of attempts `k, k+1, ..., k+n-1`. -/
def durSum (f : Nat → Nat) : Nat → Nat → Nat
  | _, 0 => 0
  | k, n + 1 => f k + durSum f (k + 1) n

/-- The sleeps performed from time `now` onwards never total more than the time
left until the deadline. -/
theorem healthCheckGo_sum_le (f : Nat → Nat) (ok : Nat → Bool) :
    ∀ fuel now k, (healthCheckGo f ok fuel now k).1.sum ≤ totalTimeoutMs - now := by
  intro fuel
  induction fuel with
  | zero => intro now k; simp [healthCheckGo]
  | succ m ih =>
    intro now k
    simp only [healthCheckGo]
    by_cases hok : ok k
    · simp [hok]
    · simp only [hok, Bool.false_eq_true, if_false]
      by_cases hto : totalTimeoutMs < now + f k
      · simp [hto]
      · simp only [hto, if_false, List.sum_cons]
        have h := ih (now + f k + min (baseDelayMs * 2 ^ k) (totalTimeoutMs - (now + f k))) (k + 1)
        omega

/-- The `n`-th sleep performed (0-indexed) is exactly
`min (100 * 2 ^ (k + n)) (remaining budget)`, where the remaining budget is the
deadline minus the time consumed by the fetch attempts so far and the earlier
sleeps. -/
theorem healthCheckGo_getElem (f : Nat → Nat) (ok : Nat → Bool) :
    ∀ fuel now k n s, (healthCheckGo f ok fuel now k).1[n]? = some s →
      s = min (baseDelayMs * 2 ^ (k + n))
        (totalTimeoutMs - (now + durSum f k (n + 1) +
          ((healthCheckGo f ok fuel now k).1.take n).sum)) := by
  intro fuel
  induction fuel with
  | zero => intro now k n s h; simp [healthCheckGo] at h
  | succ m ih =>
    intro now k n s h
    simp only [healthCheckGo] at h ⊢
    by_cases hok : ok k
    · simp [hok] at h
    · simp only [hok, Bool.false_eq_true, if_false] at h ⊢
      by_cases hto : totalTimeoutMs < now + f k
      · simp [hto] at h
      · simp only [hto, if_false] at h ⊢
        cases n with
        | zero =>
          simp only [List.getElem?_cons_zero, Option.some.injEq] at h
          subst h
          simp [durSum]
        | succ n =>
          simp only [List.getElem?_cons_succ] at h
          have hih := ih (now + f k + min (baseDelayMs * 2 ^ k) (totalTimeoutMs - (now + f k)))
            (k + 1) n s h
          rw [hih]
          have e2 : k + 1 + n = k + (n + 1) := by omega
          rw [e2]
          simp only [durSum, List.take_succ_cons, List.sum_cons]
          congr 1
          omega

/-- With every fetch failing and taking at least one millisecond, enough fuel
makes the prober give up and rethrow the last error. -/
theorem healthCheckGo_exhaust (f : Nat → Nat) (ok : Nat → Bool)
    (hf : ∀ j, 1 ≤ f j) (hok : ∀ j, ok j = false) :
    ∀ fuel now k, 1 ≤ fuel → totalTimeoutMs + 1 ≤ now + fuel →
      (healthCheckGo f ok fuel now k).2 = some false := by
  intro fuel
  induction fuel with
  | zero => intro now k h1 _; omega
  | succ m ih =>
    intro now k _ hbound
    simp only [healthCheckGo, hok, Bool.false_eq_true, if_false]
    by_cases hto : totalTimeoutMs < now + f k
    · simp [hto]
    · simp only [hto, if_false]
      have hfk := hf k
      apply ih
      · omega
      · omega

/-- Claim C3: the health prober's `n`-th sleep (0-indexed, the backoff pause
taken after the `n`-th failed attempt) is exactly
`min (100ms * 2 ^ n) (remaining time budget)`; the sum of all sleep durations
never exceeds the 10 second total timeout (so in particular it exceeds it by no
more than one attempt's duration, and no sleep runs past the remaining budget);
and for a target that never responds successfully, once the budget is exhausted
the prober rethrows the last observed error instead of sleeping further. -/
theorem healthCheck_backoff (f : Nat → Nat) (ok : Nat → Bool) (fuel : Nat)
    (hf : ∀ j, 1 ≤ f j) (hok : ∀ j, ok j = false) :
    ((healthCheck f ok fuel).1.sum ≤ totalTimeoutMs)
    ∧ (∀ n s, (healthCheck f ok fuel).1[n]? = some s →
        s = min (baseDelayMs * 2 ^ n)
          (totalTimeoutMs - (durSum f 0 (n + 1) + ((healthCheck f ok fuel).1.take n).sum)))
    ∧ (totalTimeoutMs + 1 ≤ fuel → (healthCheck f ok fuel).2 = some false) := by
  refine ⟨?_, ?_, ?_⟩
  · have h := healthCheckGo_sum_le f ok fuel 0 0
    simpa [healthCheck] using h
  · intro n s h
    have hg := healthCheckGo_getElem f ok fuel 0 0 n s h
    simpa [healthCheck] using hg
  · intro h
    exact healthCheckGo_exhaust f ok hf hok fuel 0 0 (by omega) (by omega)

/-- Witness for C3 at a concrete target: every fetch fails and takes 1ms. -/
theorem healthCheck_backoff_witness :
    ((healthCheck (fun _ => 1) (fun _ => false) 10001).1.sum ≤ totalTimeoutMs)
    ∧ (healthCheck (fun _ => 1) (fun _ => false) 10001).2 = some false := by
  have h := healthCheck_backoff (fun _ => 1) (fun _ => false) 10001
    (fun _ => Nat.le_refl 1) (fun _ => rfl)
  exact ⟨h.1, h.2.2 (by decide)⟩

/-! ## Backend process supervisor (deploy in src/convex_backend.ts)

`deploy` opens both log files, spawns the backend process, and then inside a
try/finally block: awaits `healthCheck()`, checks `convexProcess.exitCode`
(throwing "Convex process failed to start" when the process already exited),
runs the `bunx convex dev --once` push (throwing on a non-zero status), and in
the `finally` kills the process and closes both log file handles.

The environment supplies the external facts: the fetch behaviour seen by the
health probe, the value of `convexProcess.exitCode` at the moment it is read
(`none` models JavaScript `null`, i.e. still running), and the push command's
exit status. -/

structure DeployEnv where
  fetchDur : Nat → Nat
  fetchOk : Nat → Bool
  fuel : Nat
  exitCodeAfterProbe : Option Int
  pushStatus : Int

inductive DeployError where
  /-- The health probe rethrew its last fetch error. -/
  | probeError
  /-- The "Convex process failed to start" error. -/
  | prematureExit
  /-- The "Deploy failed with code ..." error. -/
  | pushFailed (code : Int)
  /-- Model artifact: the probe's fuel ran out. -/
  | modelFuelOut
deriving DecidableEq

/-- What `deploy` has done by the time it returns: whether the backend process
was signalled to terminate, whether each log handle was closed, whether the
push command ran, the probe's sleeps, and the overall outcome.  The caller in
`main.ts` records the deploy stage outcome from this returned/raised value, so
everything in this record happens before the stage outcome is recorded. -/
structure DeployResult where
  killed : Bool
  stdoutClosed : Bool
  stderrClosed : Bool
  pushRan : Bool
  sleeps : List Nat
  outcome : Except DeployError Unit

def deploy (env : DeployEnv) : DeployResult :=
  let hc := healthCheck env.fetchDur env.fetchOk env.fuel
  let body : Bool × Except DeployError Unit :=
    match hc.2 with
    | some true =>
      match env.exitCodeAfterProbe with
      | some _ => (false, .error .prematureExit)
      | none =>
        if env.pushStatus = 0 then (true, .ok ())
        else (true, .error (.pushFailed env.pushStatus))
    | some false => (false, .error .probeError)
    | none => (false, .error .modelFuelOut)
  { killed := true
    stdoutClosed := true
    stderrClosed := true
    pushRan := body.1
    sleeps := hc.1
    outcome := body.2 }

/-- Claim C4: on every exit path of a deploy attempt (push success, push
failure, health-probe failure, premature process exit, or any other raised
error) the backend process is signalled to terminate and both log file handles
are closed; the deploy stage outcome is recorded by the caller only from the
returned value, hence after the release. -/
theorem deploy_always_releases (env : DeployEnv) :
    (deploy env).killed = true
    ∧ (deploy env).stdoutClosed = true
    ∧ (deploy env).stderrClosed = true := by
  refine ⟨rfl, rfl, rfl⟩

/-- Discriminator for the premature-exit error. -/
def isPrematureExit : Except DeployError Unit → Bool
  | .error .prematureExit => true
  | _ => false

/-- A deploy environment whose backend process exited immediately: the process
exit code is already set, and every health fetch fails (1ms each). -/
def c5Env : DeployEnv :=
  { fetchDur := fun _ => 1
    fetchOk := fun _ => false
    fuel := 20
    exitCodeAfterProbe := some 1
    pushStatus := 0 }

/-- Counterexample to claim C5: with the backend process already exited before
the probe, `deploy` does not fail immediately with the process-exited error; it
waits out the probe (sleeping 9993ms in total, essentially the full 10 second
budget) and then fails with the probe's connection error, because the
`exitCode` check runs only after `healthCheck()` returns successfully. -/
theorem deploy_premature_counterexample :
    (deploy c5Env).outcome = .error .probeError
    ∧ (deploy c5Env).sleeps.sum = 9993
    ∧ isPrematureExit (deploy c5Env).outcome = false := by
  refine ⟨rfl, rfl, rfl⟩

/-- Claim C5 as amended: the process-exited-prematurely check runs only after a
successful health probe; when the probe succeeds and the process has already
exited, deploy fails with the premature-exit error before running the push
command (when the process exited before the probe and nothing answers the port,
the probe itself runs to its timeout and deploy fails with the probe's last
connection error, as the counterexample shows). -/
theorem deploy_premature_amended (env : DeployEnv) (c : Int)
    (hprobe : (healthCheck env.fetchDur env.fetchOk env.fuel).2 = some true)
    (hexit : env.exitCodeAfterProbe = some c) :
    (deploy env).outcome = .error .prematureExit ∧ (deploy env).pushRan = false := by
  simp [deploy, hprobe, hexit]

/-- Witness for the amended C5: the first fetch succeeds instantly but the
process has already exited. -/
theorem deploy_premature_amended_witness :
    (deploy ⟨fun _ => 0, fun _ => true, 1, some 0, 0⟩).outcome = .error .prematureExit
    ∧ (deploy ⟨fun _ => 0, fun _ => true, 1, some 0, 0⟩).pushRan = false :=
  deploy_premature_amended ⟨fun _ => 0, fun _ => true, 1, some 0, 0⟩ 0 rfl rfl

/-! ## Stage pipeline and batch orchestrator (main in src/main.ts)

Each stage call (`setupJs`, `typecheckJs`, `lintJs`, `deploy`) either resolves
or rejects with an error; `main` records `status "ok"` or
`status "failed"` with `String(e)`.  The thrown errors are modelled already in
their `String(e)` rendering, so a stage result is `Except String Unit`.  The
pipeline runs setup, then — only when the recorded setup status is "ok" —
typecheck, lint and deploy, each recorded regardless of the others' results. -/

structure StageOutcome where
  status : String
  error : Option String
deriving DecidableEq

structure ReportEntry where
  category : String
  test : String
  setup : Option StageOutcome := none
  typecheck : Option StageOutcome := none
  lint : Option StageOutcome := none
  deploy : Option StageOutcome := none
deriving DecidableEq

/-- The outcome recorded in a catch block of `main`. -/
def outcomeOf : Except String Unit → StageOutcome
  | .ok _ => ⟨"ok", none⟩
  | .error e => ⟨"failed", some e⟩

def stageOk : Except String Unit → Bool
  | .ok _ => true
  | .error _ => false

/-- The results the four external stage calls would produce for one project. -/
structure StageEnv where
  setupRes : Except String Unit
  typecheckRes : Except String Unit
  lintRes : Except String Unit
  deployRes : Except String Unit

/-- The per-project evaluation loop body of `main` (lines 112-154): returns the
report entry and the project's `allOk` flag. -/
def evaluateProject (category test : String) (env : StageEnv) : ReportEntry × Bool :=
  let setupOutcome := outcomeOf env.setupRes
  let base : ReportEntry := { category := category, test := test, setup := some setupOutcome }
  if setupOutcome.status = "ok" then
    ({ base with
        typecheck := some (outcomeOf env.typecheckRes)
        lint := some (outcomeOf env.lintRes)
        deploy := some (outcomeOf env.deployRes) },
      stageOk env.setupRes && stageOk env.typecheckRes && stageOk env.lintRes
        && stageOk env.deployRes)
  else (base, false)

/-- Claim C1: stage outcomes are recorded in pipeline order with no stage
outcome present after a recorded setup failure; the deploy stage is attempted
exactly when setup succeeded; and a typecheck or lint failure does not prevent
the lint or deploy stage from being attempted and recorded — when setup
succeeds, each of typecheck, lint and deploy is recorded with its own result,
whatever the other stages did. -/
theorem evaluateProject_stage_invariants (category test : String) (env : StageEnv) :
    ((evaluateProject category test env).1.setup = some (outcomeOf env.setupRes))
    ∧ ((evaluateProject category test env).1.deploy.isSome = true ↔ env.setupRes = Except.ok ())
    ∧ (∀ err, env.setupRes = Except.error err →
        (evaluateProject category test env).1.typecheck = none
        ∧ (evaluateProject category test env).1.lint = none
        ∧ (evaluateProject category test env).1.deploy = none)
    ∧ (env.setupRes = Except.ok () →
        (evaluateProject category test env).1.typecheck = some (outcomeOf env.typecheckRes)
        ∧ (evaluateProject category test env).1.lint = some (outcomeOf env.lintRes)
        ∧ (evaluateProject category test env).1.deploy = some (outcomeOf env.deployRes))
    ∧ ((evaluateProject category test env).1.deploy.isSome = true →
        (evaluateProject category test env).1.lint.isSome = true
        ∧ (evaluateProject category test env).1.typecheck.isSome = true
        ∧ (evaluateProject category test env).1.setup.isSome = true) := by
  cases h : env.setupRes with
  | ok u => cases u; simp [evaluateProject, outcomeOf, h]
  | error e => simp [evaluateProject, outcomeOf, h]

/-- Witness for C1: a project whose setup fails records no later stage, and a
project whose setup succeeds records all four stages even though typecheck
failed. -/
theorem evaluateProject_stage_invariants_witness :
    ((evaluateProject "c" "t" ⟨.error "boom", .ok (), .ok (), .ok ()⟩).1.typecheck = none
      ∧ (evaluateProject "c" "t" ⟨.error "boom", .ok (), .ok (), .ok ()⟩).1.lint = none
      ∧ (evaluateProject "c" "t" ⟨.error "boom", .ok (), .ok (), .ok ()⟩).1.deploy = none)
    ∧ ((evaluateProject "c" "t" ⟨.ok (), .error "tc", .ok (), .ok ()⟩).1.lint
        = some (outcomeOf (Except.ok ()))
      ∧ (evaluateProject "c" "t" ⟨.ok (), .error "tc", .ok (), .ok ()⟩).1.deploy
        = some (outcomeOf (Except.ok ()))) := by
  refine ⟨(evaluateProject_stage_invariants "c" "t" _).2.2.1 "boom" rfl, ?_⟩
  have h := (evaluateProject_stage_invariants "c" "t"
    ⟨.ok (), .error "tc", .ok (), .ok ()⟩).2.2.2.1 rfl
  exact ⟨h.2.1, h.2.2⟩

/-- The orchestrator-level inputs of one run: which phases run, whether a
report path was configured, the discovered test list as iterated by the loops,
and the external results of generation and of the per-project stages. -/
structure MainEnv where
  doGeneration : Bool
  doEvaluation : Bool
  reportPath : Bool
  tests : List (String × String)
  genRes : String → String → Except String Unit
  stageEnv : String → String → StageEnv

structure MainResult where
  reportWritten : Option (List ReportEntry)
  result : Except String Unit

/-- The body of `main` after discovery (lines 73-161): the generation phase
awaits all per-project generations and converts any failure into a thrown
"Generation failed."; the evaluation phase builds one report entry per test in
order, writes the report when a path was configured, and throws
"Evaluation failed." when any attempted stage failed. -/
def runMain (env : MainEnv) : MainResult :=
  if env.doGeneration && env.tests.any (fun p => !stageOk (env.genRes p.1 p.2)) then
    { reportWritten := none, result := .error "Generation failed." }
  else if env.doEvaluation then
    let entries := env.tests.map (fun p => evaluateProject p.1 p.2 (env.stageEnv p.1 p.2))
    { reportWritten := if env.reportPath then some (entries.map Prod.fst) else none
      result :=
        if entries.any (fun pr => !pr.2) then .error "Evaluation failed." else .ok () }
  else { reportWritten := none, result := .ok () }

/-- The top level of src/main.ts, line 164: `main().catch(console.error)`.  The
rejection is handled (and merely printed), so the process exits with status 0
whether or not `main` rejected. -/
def processExitCode (env : MainEnv) : Nat :=
  match (runMain env).result with
  | .ok _ => 0
  | .error _ => 0

/-- A run with one discovered project whose setup stage fails, with a report
path configured. -/
def c2Env : MainEnv :=
  { doGeneration := false
    doEvaluation := true
    reportPath := true
    tests := [("basic", "echo")]
    genRes := fun _ _ => .ok ()
    stageEnv := fun _ _ =>
      ⟨.error "Error: Install failed with code 1", .ok (), .ok (), .ok ()⟩ }

/-- Claim C2, demonstrated at the failing input: when a project has a failed
stage, `main` does write the report first (one entry per evaluated project) and
rejects with "Evaluation failed." — but the process still exits with status 0,
because line 164 handles the rejection with `console.error`, contradicting the
claimed non-zero exit status. -/
theorem main_exit_status_bug :
    processExitCode c2Env = 0
    ∧ (runMain c2Env).result = Except.error "Evaluation failed."
    ∧ (runMain c2Env).reportWritten = some
        [{ category := "basic", test := "echo",
           setup := some ⟨"failed", some "Error: Install failed with code 1"⟩ }] := by
  refine ⟨rfl, rfl, rfl⟩

/-- Claim C9: during the generation phase, any single project's generation
failure fails the whole phase: the run stops with the run-fatal
"Generation failed." error, and no report (hence no partial generation
success) is produced. -/
theorem generation_failfast (env : MainEnv) (p : String × String)
    (hgen : env.doGeneration = true) (hmem : p ∈ env.tests)
    (hfail : stageOk (env.genRes p.1 p.2) = false) :
    (runMain env).result = Except.error "Generation failed."
    ∧ (runMain env).reportWritten = none := by
  have hany : env.tests.any (fun q => !stageOk (env.genRes q.1 q.2)) = true := by
    rw [List.any_eq_true]
    exact ⟨p, hmem, by simp [hfail]⟩
  simp [runMain, hgen, hany]

/-- Witness for C9: a batch of two projects where the second one's generation
fails. -/
theorem generation_failfast_witness :
    (runMain
      { doGeneration := true, doEvaluation := true, reportPath := true
        tests := [("a", "x"), ("b", "y")]
        genRes := fun c _ => if c = "b" then .error "e" else .ok ()
        stageEnv := fun _ _ => ⟨.ok (), .ok (), .ok (), .ok ()⟩ }).result
      = Except.error "Generation failed."
    ∧ (runMain
      { doGeneration := true, doEvaluation := true, reportPath := true
        tests := [("a", "x"), ("b", "y")]
        genRes := fun c _ => if c = "b" then .error "e" else .ok ()
        stageEnv := fun _ _ => ⟨.ok (), .ok (), .ok (), .ok ()⟩ }).reportWritten = none := by
  exact generation_failfast _ ("b", "y") rfl (by simp) (by simp [stageOk])

/-! ## Lint verifier (lintJs in src/typescript.ts) and its recording in main

On a non-zero exit, `lintJs` tries `JSON.parse(stdout)`; on success it deletes
each record's `source` field and rejects with
`VerificationError("Linting failed", errors)`; if parsing throws it rejects with
`Error("ESLint failed with output: " + stdout)`.  `main` (line 140) records a
failure as `status "failed"` with `error = String(e)`:
`VerificationError.toString()` is `message + "\n" + metadata.join("\n")`, and
`Array.prototype.join` renders each plain record object as "[object Object]";
a plain `Error` renders as "Error: " followed by its message. -/

/-- An ESLint result record, with its verbose `source` snippet field and the
remaining fields kept abstract. -/
structure LintRecord where
  filePath : String
  rest : String
  source : Option String
deriving DecidableEq

/-- The `delete error.source` loop applied to one record. -/
def stripSource (r : LintRecord) : LintRecord :=
  { r with source := none }

/-- The captured stdout of the lint command, as seen by `JSON.parse`: either it
parses as a list of records, or it is unparsable raw text. -/
inductive LintStdout where
  | json (records : List LintRecord)
  | text (raw : String)

inductive LintError where
  | verification (message : String) (metadata : List LintRecord)
  | plain (message : String)
deriving DecidableEq

def lintJs (exitCode : Int) (stdout : LintStdout) : Except LintError Unit :=
  if exitCode = 0 then .ok ()
  else
    match stdout with
    | .json records => .error (.verification "Linting failed" (records.map stripSource))
    | .text raw => .error (.plain ("ESLint failed with output: " ++ raw))

/-- JavaScript `Array.prototype.join` with a newline separator. -/
def joinNl : List String → String
  | [] => ""
  | [x] => x
  | x :: y :: rest => x ++ "\n" ++ joinNl (y :: rest)

/-- JavaScript `String(e)` for the two lint error kinds. -/
def lintErrorToString : LintError → String
  | .verification message metadata =>
    message ++ "\n" ++ joinNl (metadata.map (fun _ => "[object Object]"))
  | .plain message => "Error: " ++ message

/-- The lint catch block of `main` (lines 136-142). -/
def recordLint : Except LintError Unit → StageOutcome
  | .ok _ => ⟨"ok", none⟩
  | .error e => ⟨"failed", some (lintErrorToString e)⟩

def c7r1 : LintRecord := ⟨"a.ts", "no-unused-vars", some "const x = 1;"⟩

def c7r2 : LintRecord := ⟨"b.ts", "no-undef", none⟩

/-- Counterexample to claim C7: two lint runs whose parsed diagnostics differ
(even after stripping the source snippets) are recorded with the identical
outcome, whose error field is the fixed string "Linting failed" followed by
"[object Object]" — so the recorded error is the `String(e)` rendering of the
`VerificationError`, not the parsed list of diagnostic records. -/
theorem lint_outcome_counterexample :
    recordLint (lintJs 2 (.json [c7r1])) = recordLint (lintJs 2 (.json [c7r2]))
    ∧ recordLint (lintJs 2 (.json [c7r1]))
      = ⟨"failed", some ("Linting failed" ++ "\n" ++ "[object Object]")⟩
    ∧ stripSource c7r1 ≠ stripSource c7r2 := by
  refine ⟨rfl, rfl, ?_⟩
  intro h
  simp [stripSource, c7r1, c7r2] at h

/-- Claim C7 as amended: when the lint command exits non-zero with JSON-parsable
diagnostics, `lintJs` rejects with a `VerificationError` whose metadata is the
parsed record list with each record's source snippet stripped, and `main`
records the outcome as status "failed" with error the string rendering of that
error: "Linting failed" then one "[object Object]" line per record; if parsing
fails, the recorded error string embeds the raw output; exit code 0 records
nothing abnormal. -/
theorem lint_outcome_amended (c : Int) (hc : c ≠ 0) (records : List LintRecord)
    (raw : String) :
    lintJs c (.json records) = .error (.verification "Linting failed" (records.map stripSource))
    ∧ recordLint (lintJs c (.json records))
      = ⟨"failed", some ("Linting failed" ++ "\n"
          ++ joinNl (records.map (fun _ => "[object Object]")))⟩
    ∧ recordLint (lintJs c (.text raw))
      = ⟨"failed", some ("Error: " ++ ("ESLint failed with output: " ++ raw))⟩
    ∧ lintJs 0 (.json records) = .ok () := by
  refine ⟨by simp [lintJs, hc], ?_, by simp [lintJs, recordLint, lintErrorToString, hc], by simp [lintJs]⟩
  have hmap : (records.map stripSource).map (fun _ => "[object Object]")
      = records.map (fun _ => "[object Object]") := by
    induction records with
    | nil => rfl
    | cons a l ih => simpa using ih
  simp only [lintJs, if_neg hc, recordLint, lintErrorToString, hmap]

/-- Witness for the amended C7 at exit code 2 with one diagnostic record. -/
theorem lint_outcome_amended_witness :
    recordLint (lintJs 2 (.json ([⟨"f.ts", "m", some "s"⟩] : List LintRecord)))
      = ⟨"failed", some ("Linting failed" ++ "\n"
          ++ joinNl (([⟨"f.ts", "m", some "s"⟩] : List LintRecord).map
              (fun _ => "[object Object]")))⟩
    ∧ recordLint (lintJs 2 (.text "garbage"))
      = ⟨"failed", some ("Error: " ++ ("ESLint failed with output: " ++ "garbage"))⟩ := by
  have h := lint_outcome_amended 2 (by decide) ([⟨"f.ts", "m", some "s"⟩] : List LintRecord)
    "garbage"
  exact ⟨h.2.1, h.2.2.1⟩

/-! ## Generation file writing (generateTest in src/generate.ts)

For each extracted file tag, `generateTest` reads the `path` attribute (a
missing or empty attribute is falsy and throws "File path is not set"),
computes `absFilePath = path.join(projectDir, path)`, throws when
`absFilePath.startsWith(projectDir)` is false, and otherwise immediately
writes the file with the tag's text trimmed.  Paths are modelled as POSIX
relative path strings; `path.join` concatenates the segments and normalizes
"." , ".." and empty segments, exactly as Node's `path.posix.join` does for
relative inputs. -/

/-- Splits a path string at "/" separators. -/
def splitSlashAux : List Char → List Char → List String
  | [], cur => [String.mk cur.reverse]
  | c :: cs, cur =>
    if c = '/' then String.mk cur.reverse :: splitSlashAux cs []
    else splitSlashAux cs (c :: cur)

def splitSlash (s : String) : List String :=
  splitSlashAux s.data []

/-- One step of Node path normalization over already-processed components. -/
def normStep (acc : List String) (c : String) : List String :=
  if c = "" ∨ c = "." then acc
  else if c = ".." then
    match acc.getLast? with
    | some last => if last = ".." then acc ++ [".."] else acc.dropLast
    | none => acc ++ [".."]
  else acc ++ [c]

def normalizeComps (cs : List String) : List String :=
  cs.foldl normStep []

def renderPath : List String → String
  | [] => ""
  | [c] => c
  | c :: c2 :: rest => c ++ "/" ++ renderPath (c2 :: rest)

/-- Node `path.join` for relative POSIX paths. -/
def joinPath (base rel : String) : String :=
  renderPath (normalizeComps (splitSlash base ++ splitSlash rel))

/-- JavaScript `String.prototype.startsWith`, character for character. -/
def strStarts (s pre : String) : Bool :=
  pre.data.isPrefixOf s.data

/-- The whitespace characters removed by JavaScript `String.prototype.trim`
that can occur in generated text. -/
def isJsWs (c : Char) : Bool :=
  c = ' ' ∨ c = '\t' ∨ c = '\n' ∨ c = '\r' ∨ c = '\x0b' ∨ c = '\x0c'

/-- JavaScript `String.prototype.trim`: drop leading and trailing whitespace. -/
def jsTrim (s : String) : String :=
  String.mk (((s.data.dropWhile isJsWs).reverse.dropWhile isJsWs).reverse)

/-- One extracted `<file>` tag: its `path` attribute (absent when the markup
omitted it) and its text content. -/
structure FileTag where
  path : Option String
  text : String
deriving DecidableEq

/-- The file-writing loop of `generateTest` (lines 170-187): returns the files
written (in order, with their joined paths and trimmed contents) and the thrown
error, if any.  Files written before an offending tag stay written. -/
def generateFiles (projectDir : String) : List FileTag → List (String × String) × Option String
  | [] => ([], none)
  | t :: rest =>
    if t.path.getD "" = "" then ([], some "File path is not set")
    else
      let abs := joinPath projectDir (t.path.getD "")
      if strStarts abs projectDir then
        let r := generateFiles projectDir rest
        ((abs, jsTrim t.text) :: r.1, r.2)
      else ([], some ("File path " ++ abs ++ " is not underneath " ++ projectDir))

/-- Counterexample to claim C6, in two parts.  First, a response whose second
file path escapes the project root does fail with the path-escape error, but
the first file has already been written — generation does not "write no files
for that project".  Second, a traversal path that escapes into a sibling
directory whose name extends the project directory's name passes the
`startsWith` check, so generation succeeds and writes the escaped file with no
error at all. -/
theorem generate_escape_counterexample :
    generateFiles "out/project"
        [⟨some "good.txt", "hello"⟩, ⟨some "../../etc/passwd", "oops"⟩]
      = ([("out/project/good.txt", "hello")],
         some ("File path " ++ "etc/passwd" ++ " is not underneath " ++ "out/project"))
    ∧ generateFiles "out/project" [⟨some "../project-evil/x", "p"⟩]
      = ([("out/project-evil/x", "p")], none) := by
  refine ⟨?_, ?_⟩ <;> rfl

/-- Claim C6 as amended: every file actually written has a joined path that
passes the `startsWith(projectDir)` prefix check, and a tag whose joined path
fails that check makes generation fail at that tag with the path-escape error,
writing neither it nor any later file (files from earlier tags have already
been written, and the prefix check admits escapes into sibling directories
whose rendered path extends the project directory string). -/
theorem generate_prefix_check (projectDir : String) :
    (∀ tags pc, pc ∈ (generateFiles projectDir tags).1 → strStarts pc.1 projectDir = true)
    ∧ (∀ p txt rest, p ≠ "" → strStarts (joinPath projectDir p) projectDir = false →
        generateFiles projectDir (⟨some p, txt⟩ :: rest)
          = ([], some ("File path " ++ joinPath projectDir p ++ " is not underneath "
              ++ projectDir))) := by
  constructor
  · intro tags
    induction tags with
    | nil => intro pc h; simp [generateFiles] at h
    | cons t rest ih =>
      intro pc h
      by_cases hempty : t.path.getD "" = ""
      · simp [generateFiles, hempty] at h
      · by_cases hpre : strStarts (joinPath projectDir (t.path.getD "")) projectDir
        · simp only [generateFiles, hempty, if_false, hpre, if_true, List.mem_cons] at h
          rcases h with h | h
          · subst h; exact hpre
          · exact ih pc h
        · simp [generateFiles, hempty, hpre] at h
  · intro p txt rest hp hpre
    simp [generateFiles, hp, hpre]

/-- Witness for the amended C6: a single tag whose path climbs out of the
project directory is rejected and nothing is written. -/
theorem generate_prefix_check_witness :
    generateFiles "a/b" [⟨some "..", "x"⟩]
      = ([], some ("File path " ++ joinPath "a/b" ".." ++ " is not underneath " ++ "a/b")) :=
  (generate_prefix_check "a/b").2 ".." "x" [] (by decide) (by rfl)

/-- The head of `dropWhile p l` never satisfies `p`. -/
theorem dropWhile_head_not (p : Char → Bool) :
    ∀ (l : List Char) (c : Char), (l.dropWhile p).head? = some c → p c = false := by
  intro l
  induction l with
  | nil => intro c h; simp at h
  | cons a as ih =>
    intro c h
    by_cases ha : p a
    · rw [List.dropWhile_cons_of_pos ha] at h
      exact ih c h
    · rw [List.dropWhile_cons_of_neg ha] at h
      simp at h
      subst h
      exact Bool.not_eq_true _ ▸ (by simpa using ha)

/-- A nonempty prefix determines the head of the longer list. -/
theorem head?_append_some {α : Type} (t x : List α) (c : α) (h : t.head? = some c) :
    (t ++ x).head? = some c := by
  cases t with
  | nil => simp at h
  | cons a as => simpa using h

/-- Claim C10: every file written by generation has as its content the tag's
text with leading and trailing whitespace removed; and a trimmed string never
begins or ends with a whitespace character (a trailing newline included),
whatever whitespace surrounded the text in the markup. -/
theorem generate_content_trimmed (projectDir : String) (tags : List FileTag) :
    (∀ pc, pc ∈ (generateFiles projectDir tags).1 → ∃ t, t ∈ tags ∧ pc.2 = jsTrim t.text)
    ∧ (∀ s c, (jsTrim s).data.head? = some c → isJsWs c = false)
    ∧ (∀ s c, (jsTrim s).data.getLast? = some c → isJsWs c = false) := by
  refine ⟨?_, ?_, ?_⟩
  · induction tags with
    | nil => intro pc h; simp [generateFiles] at h
    | cons t rest ih =>
      intro pc h
      by_cases hempty : t.path.getD "" = ""
      · simp [generateFiles, hempty] at h
      · by_cases hpre : strStarts (joinPath projectDir (t.path.getD "")) projectDir
        · simp only [generateFiles, hempty, if_false, hpre, if_true, List.mem_cons] at h
          rcases h with h | h
          · exact ⟨t, List.mem_cons_self t rest, by rw [h]⟩
          · obtain ⟨u, hu, he⟩ := ih pc h
            exact ⟨u, List.mem_cons_of_mem t hu, he⟩
        · simp [generateFiles, hempty, hpre] at h
  · intro s c h
    simp only [jsTrim] at h
    set r := s.data.dropWhile isJsWs with hr
    have hsplit : r.reverse.takeWhile isJsWs ++ r.reverse.dropWhile isJsWs = r.reverse :=
      List.takeWhile_append_dropWhile isJsWs r.reverse
    have hrdecomp : r = (r.reverse.dropWhile isJsWs).reverse
        ++ (r.reverse.takeWhile isJsWs).reverse := by
      have h2 := congrArg List.reverse hsplit
      rw [List.reverse_append, List.reverse_reverse] at h2
      exact h2.symm
    have hhead : r.head? = some c := by
      rw [hrdecomp]
      exact head?_append_some _ _ c h
    exact dropWhile_head_not isJsWs _ c hhead
  · intro s c h
    simp only [jsTrim] at h
    rw [List.getLast?_reverse] at h
    exact dropWhile_head_not isJsWs _ c h

/-- Witness for C10: a text wrapped in spaces and newlines is written with the
surrounding whitespace removed. -/
theorem generate_content_trimmed_witness :
    (∃ t, t ∈ ([⟨some "f.txt", "\n  hi there \n"⟩] : List FileTag)
      ∧ ("p/f.txt", jsTrim "\n  hi there \n").2 = jsTrim t.text)
    ∧ isJsWs 'h' = false := by
  refine ⟨?_, ?_⟩
  · exact (generate_content_trimmed "p" [⟨some "f.txt", "\n  hi there \n"⟩]).1
      ("p/f.txt", jsTrim "\n  hi there \n") (by decide)
  · rfl

/-! ## Test discovery (main in src/main.ts, lines 57-71)

The source builds `tests` with
`readdirSync(evalsDir).filter(cb).flat().sort()` where the callback `cb` maps a
category name to an *array* of `[category, test]` pairs (or, when the inner
`readdirSync` throws, to the empty array from the catch block).  Because
JavaScript `Array.prototype.filter` interprets its callback's return value only
for truthiness, and every array — the empty array included — is truthy, every
category name is kept; `.flat()` on an array of strings is the identity; and
`.sort()` sorts the category-name strings.  The evaluation loop then
destructures each string with `const [category, test] of tests`, which iterates
the string's characters.

The evaluation root is modelled as an association list from category name to
its test listing, with `none` standing for a category whose `readdirSync`
throws. -/

/-- JavaScript truthiness of an array value: every array, the empty array
included, is truthy. -/
def jsArrayTruthy (_l : List (String × String)) : Bool := true

/-- Lexicographic comparison of strings by character code, as JavaScript's
default `Array.prototype.sort` comparator behaves on these names. -/
def charListLe : List Char → List Char → Bool
  | [], _ => true
  | _ :: _, [] => false
  | a :: as, b :: bs => if a = b then charListLe as bs else decide (a.toNat < b.toNat)

def insertSorted (x : String) : List String → List String
  | [] => [x]
  | y :: ys => if charListLe x.data y.data then x :: y :: ys else y :: insertSorted x ys

def sortStrings : List String → List String
  | [] => []
  | x :: xs => insertSorted x (sortStrings xs)

/-- The discovery expression of `main`: the value actually bound to `tests`. -/
def discoverTests (tree : List (String × Option (List String)))
    (testFilter : Option (String → Bool)) : List String :=
  sortStrings
    ((tree.filter (fun e =>
      jsArrayTruthy
        (match e.2 with
          | none => []
          | some tests =>
            (tests.filter (fun t =>
              match testFilter with
              | none => true
              | some f => f t)).map (fun t => (e.1, t))))).map Prod.fst)

/-- JavaScript array destructuring `const [a, b] = s` applied to a string
iterates its characters. -/
def destructureTwo (s : String) : Option Char × Option Char :=
  (s.data[0]?, s.data[1]?)

/-- Claim C8, demonstrated at the failing input.  Discovery over a root with
categories "zeta" (whose listing throws) and "basic" (holding tests "echo" and
"tango"), under a filter that rejects every test name, still yields the sorted
category-name strings — not one (category, test) pair per test case, and the
filter and the listings are ignored because the callback's array return value
is always truthy to `.filter`.  The evaluation loop then destructures the
string "basic" into category 'b' and test 'a'. -/
theorem discovery_code_bug :
    discoverTests [("zeta", none), ("basic", some ["echo", "tango"])]
        (some (fun _ => false)) = ["basic", "zeta"]
    ∧ discoverTests [("basic", some ["echo"])] none = ["basic"]
    ∧ destructureTwo "basic" = (some 'b', some 'a') := by
  refine ⟨rfl, rfl, rfl⟩

end ConvexEvals
